import Mathlib

/-!
# Verification of the type-fetch HTTP client core

This file is a shallow embedding, in Lean 4, of the request-execution core of
the type-fetch TypeScript library: the content-type body
preparation/serialization helpers, the cache key generation and the bounded
cache store with its eviction sweep, the retry-driven request executor
`handleRequest`, and the thin public verb wrappers (get/post/put/patch/
delete/head).  JavaScript runtime behaviour that the source relies on
(truthiness, `String(...)` coercion, 32-bit integer wrap-around in the hash,
`Object.entries` on a `Headers` instance, the WHATWG header name/value
validation of the `Headers` constructor, stable `Array.prototype.sort`) is
modelled explicitly.  Asynchronous functions that can reject are embedded as
`Except`-returning functions; a thrown error / rejected promise is the
`Except.error` case.  Machine numbers are modelled as `Nat`/`Int` with
explicit reduction modulo 2^32 where the source truncates to 32 bits.
-/

/-- Atomic JavaScript values: primitives plus the opaque binary payloads
(`Blob`, `File`) that the body helpers distinguish with `instanceof`. -/
inductive JSAtom where
  | jnull
  | jundef
  | jbool (b : Bool)
  | jnum (n : Int)
  | jstr (s : String)
  | jblob (content : String)
  | jfile (name content : String)
deriving DecidableEq, Repr

/-- JavaScript values reaching the body helpers: atoms, plain objects with
atomic field values, `FormData` containers, and `circular`, a cyclic object
used to model data on which `JSON.stringify` throws.  The claims under
verification only ever inspect one level of object structure, so object
fields are atomic; this loses no behaviour relevant to them. -/
inductive JSVal where
  | atom (a : JSAtom)
  | obj (fields : List (String × JSAtom))
  | formData (entries : List (String × JSAtom))
  | circular
deriving DecidableEq, Repr

/-- JavaScript truthiness of an atom: `null`, `undefined`, `false`, `0` and
the empty string are falsy; `Blob`/`File` instances are objects, hence
truthy. -/
def JSAtom.truthy : JSAtom → Bool
  | .jnull => false
  | .jundef => false
  | .jbool b => b
  | .jnum n => n != 0
  | .jstr s => s != ""
  | .jblob _ => true
  | .jfile _ _ => true

/-- JavaScript truthiness of a value: every object is truthy. -/
def jsTruthy : JSVal → Bool
  | .atom a => a.truthy
  | .obj _ => true
  | .formData _ => true
  | .circular => true

/-- Truthiness of a `T | null` value, where `none` models JavaScript
`null`/`undefined`. -/
def jsTruthyOpt : Option JSVal → Bool
  | none => false
  | some v => jsTruthy v

/-- String coercion `String(a)` of an atom. -/
def JSAtom.coerceString : JSAtom → String
  | .jnull => "null"
  | .jundef => "undefined"
  | .jbool b => if b then "true" else "false"
  | .jnum n => toString n
  | .jstr s => s
  | .jblob _ => "[object Blob]"
  | .jfile _ _ => "[object File]"

/-- String coercion `String(v)` (also the behaviour of `v.toString()` for
these values). -/
def jsToString : JSVal → String
  | .atom a => a.coerceString
  | .obj _ => "[object Object]"
  | .formData _ => "[object FormData]"
  | .circular => "[object Object]"

/-- Whether `typeof v` is the string "object" (note `typeof null` is
"object" in JavaScript). -/
def jsTypeofIsObject : JSVal → Bool
  | .atom .jnull => true
  | .atom (.jblob _) => true
  | .atom (.jfile _ _) => true
  | .atom _ => false
  | .obj _ => true
  | .formData _ => true
  | .circular => true

/-- Whether the value is a `FormData` instance. -/
def isFormDataInstance : JSVal → Bool
  | .formData _ => true
  | _ => false

/-- Whether the value is a `Blob` instance (`File` extends `Blob`). -/
def isBlobInstance : JSVal → Bool
  | .atom (.jblob _) => true
  | .atom (.jfile _ _) => true
  | _ => false

/-- A thrown JavaScript error: either a `TFetchError` (with its optional
status code) or any other `Error` (TypeError, SyntaxError, ...) of which
only the message is observed by the source. -/
inductive JSError where
  | tfetch (message : String) (status : Option Nat)
  | other (message : String)
deriving DecidableEq, Repr

/-- Message of a thrown error (`error.message`). -/
def JSError.message : JSError → String
  | .tfetch m _ => m
  | .other m => m

/-- Status extracted in the retry loop:
`lastError instanceof TFetchError ? lastError.status : undefined`. -/
def JSError.statusIfTFetch : JSError → Option Nat
  | .tfetch _ st => st
  | .other _ => none

/-- The `TFetchError` value stored in `Result.error`. -/
structure TFetchErr where
  message : String
  status : Option Nat
deriving DecidableEq, Repr

/-- The `Result<T>` return contract: `data : T | null` and
`error : TFetchError | null`, with `none` modelling `null`. -/
structure ResultJ where
  data : Option JSVal
  error : Option TFetchErr
deriving DecidableEq, Repr

/-- Supported content types (the `ContentType` union). -/
inductive ContentType where
  | json
  | form
  | text
  | blob
  | multipart
  | xml
  | html
deriving DecidableEq, Repr

/-- Printed name of a content type tag (its value as a TS string literal). -/
def ContentType.name : ContentType → String
  | .json => "json"
  | .form => "form"
  | .text => "text"
  | .blob => "blob"
  | .multipart => "multipart"
  | .xml => "xml"
  | .html => "html"

/-- The `ContentWrapper<unknown>` record: a content type tag plus data. -/
structure ContentWrapper where
  type : ContentType
  data : JSVal
deriving DecidableEq, Repr

/-- Default headers per content type (private `getHeaders` of the client). -/
def getHeadersFor : ContentType → List (String × String)
  | .json => [("Content-Type", "application/json")]
  | .form => [("Content-Type", "application/x-www-form-urlencoded")]
  | .text => [("Content-Type", "text/plain")]
  | .blob => [("Content-Type", "application/octet-stream")]
  | .multipart => [("Content-Type", "multipart/form-data")]
  | .xml => [("Content-Type", "application/xml")]
  | .html => [("Content-Type", "text/html")]

/-- JSON string escaping for `JSON.stringify` output (quote and backslash;
control-character escapes do not occur in any input considered here). -/
def jsonEscape (s : String) : String :=
  String.join (s.data.map (fun c =>
    if c = '"' then "\\\"" else if c = '\\' then "\\\\" else String.singleton c))

/-- Quoted JSON string literal. -/
def jsonQuote (s : String) : String := "\"" ++ jsonEscape s ++ "\""

/-- JSON encoding of an atom as it appears as an object field value, with
`none` for values (`undefined`) that `JSON.stringify` drops from objects.
`Blob`, `File` and `FormData` instances have no own enumerable properties,
so they stringify to an empty object. -/
def JSAtom.jsonFieldValue : JSAtom → Option String
  | .jnull => some "null"
  | .jundef => none
  | .jbool b => some (if b then "true" else "false")
  | .jnum n => some (toString n)
  | .jstr s => some (jsonQuote s)
  | .jblob _ => some "\x7b\x7d"
  | .jfile _ _ => some "\x7b\x7d"

/-- `JSON.stringify(v)`.  Throws a TypeError on circular structures; on a
top-level `undefined` it returns the undefined value, which only occurs
behind guards in the source and is rendered here as the string coerced
through the `Blob` constructor at its single (guarded, unreachable) use
site.  Object fields whose value is `undefined` are dropped. -/
def jsonStringify : JSVal → Except JSError String
  | .atom .jundef => .ok "undefined"
  | .atom a =>
    match a.jsonFieldValue with
    | some s => .ok s
    | none => .ok "undefined"
  | .obj fields =>
    .ok ("\x7b" ++
      String.intercalate ","
        (fields.filterMap (fun p =>
          (p.2.jsonFieldValue).map (fun s => jsonQuote p.1 ++ ":" ++ s))) ++
      "\x7d")
  | .formData _ => .ok "\x7b\x7d"
  | .circular => .error (.other "Converting circular structure to JSON")

/-- Own enumerable properties, `Object.entries(v)`, for the values the
`form` branch of `prepareBody` can reach: throws a TypeError on `null`;
plain objects yield their fields; `Blob`/`File` instances and the cyclic
object expose no own enumerable properties. -/
def objectOwnEntries : JSVal → Except JSError (List (String × JSAtom))
  | .atom .jnull => .error (.other "Cannot convert undefined or null to object")
  | .obj fields => .ok fields
  | .formData entries => .ok entries
  | _ => .ok []

/-- Conversion of one form field in the `form` branch of `prepareBody`:
`File` and `Blob` values are appended as binary parts, everything else is
stringified. -/
def formFieldConvert (v : JSAtom) : JSAtom :=
  match v with
  | .jfile n c => .jfile n c
  | .jblob c => .jblob c
  | _ => .jstr v.coerceString

/-- Embedding of the private `prepareBody` method (type-specific validation
and transformation of the content wrapper).  A thrown error is the
`Except.error` case.  The `!body || !body.type` part of the input guard is
vacuous in this model because a wrapper value always carries a type tag. -/
def prepareBody (body : ContentWrapper) : Except JSError ContentWrapper :=
  if body.data = .atom .jundef then
    .error (.tfetch "Invalid body: type and data are required" (some 400))
  else
    match body.type with
    | .form =>
      if jsTypeofIsObject body.data && !isFormDataInstance body.data then
        match objectOwnEntries body.data with
        | .error e => .error e
        | .ok entries =>
          .ok ⟨.form, .formData (entries.map (fun p => (p.1, formFieldConvert p.2)))⟩
      else .ok body
    | .multipart =>
      if !isFormDataInstance body.data then
        .error (.tfetch "Multipart data must be a FormData instance" (some 400))
      else .ok body
    | .json =>
      if body.data = .atom .jnull then
        .error (.tfetch "JSON body cannot be null or undefined" (some 400))
      else .ok body
    | .text =>
      .ok ⟨.text,
        .atom (.jstr (if body.data ≠ .atom .jnull ∧ body.data ≠ .atom .jundef
          then jsToString body.data else ""))⟩
    | .blob =>
      if isBlobInstance body.data then .ok body
      else
        match jsonStringify body.data with
        | .ok s => .ok ⟨.blob, .atom (.jblob s)⟩
        | .error _ => .error (.tfetch "Unable to convert data to Blob" (some 400))
    | t => .error (.tfetch ("Unsupported content type: " ++ t.name) (some 400))

/-- Embedding of the private `serializeBody` method.  The returned value is
the wire body `string | FormData | Blob | undefined`; absent body is the
undefined atom, distinct from the empty string. -/
def serializeBody (body : ContentWrapper) : Except JSError JSVal :=
  if body.data = .atom .jnull ∨ body.data = .atom .jundef then
    .ok (.atom .jundef)
  else
    match body.type with
    | .json =>
      match jsonStringify body.data with
      | .ok s => .ok (.atom (.jstr s))
      | .error e =>
        .error (.tfetch ("Failed to serialize JSON data: " ++ e.message) (some 400))
    | .form => .ok body.data
    | .multipart => .ok body.data
    | .text => .ok (.atom (.jstr (jsToString body.data)))
    | .blob => .ok body.data
    | t => .error (.tfetch ("Cannot serialize content type: " ++ t.name) (some 400))

/-- The synchronous body pipeline run by post/put/patch before any network
activity: preparation followed by serialization. -/
def bodyPipeline (body : ContentWrapper) : Except JSError JSVal :=
  match prepareBody body with
  | .error e => .error e
  | .ok prepared => serializeBody prepared

/-- Internal state of a `Headers` object: a list of (name, value) pairs with
names normalised to lower case, in insertion order. -/
abbrev HeadersObj := List (String × String)

/-- ASCII lower-casing of one character.  JavaScript `toLowerCase` and the
WHATWG header-name normalisation agree with the ASCII case mapping on
every string these are applied to (valid header names are HTTP tokens,
which are ASCII). -/
def asciiLowerChar (c : Char) : Char :=
  if 'A' ≤ c ∧ c ≤ 'Z' then Char.ofNat (c.toNat + 32) else c

/-- ASCII lower-casing of a string. -/
def asciiLower (s : String) : String := ⟨s.data.map asciiLowerChar⟩

/-- ASCII upper-casing of one character (for `method.toUpperCase()`; the
method strings are ASCII). -/
def asciiUpperChar (c : Char) : Char :=
  if 'a' ≤ c ∧ c ≤ 'z' then Char.ofNat (c.toNat - 32) else c

/-- ASCII upper-casing of a string. -/
def asciiUpper (s : String) : String := ⟨s.data.map asciiUpperChar⟩

/-- Whether a character may appear in an HTTP token (RFC 7230): letters,
digits, and the specials, among them the apostrophe (code 39) and the
backquote (code 96). -/
def isTokenChar (c : Char) : Bool :=
  c.isAlphanum || ("!#$%&*+-.^_|~".data.contains c) || c.toNat = 39 || c.toNat = 96

/-- WHATWG validation of a header name: a nonempty HTTP token.  The
`Headers` constructor and `headers.set` throw a TypeError on anything
else. -/
def isValidHeaderName (s : String) : Bool :=
  s ≠ "" && s.data.all isTokenChar

/-- HTTP whitespace, stripped from both ends of a header value before
validation and storage. -/
def isHttpWhitespace (c : Char) : Bool :=
  c = ' ' || c = '\t' || c = '\n' || c = '\r'

/-- Normalisation of a header value: strip leading and trailing HTTP
whitespace. -/
def normalizeHeaderValue (s : String) : String :=
  ⟨((s.data.dropWhile isHttpWhitespace).reverse.dropWhile isHttpWhitespace).reverse⟩

/-- WHATWG validation of a (normalised) header value: it may not contain
NUL, CR or LF. -/
def isValidHeaderValue (s : String) : Bool :=
  s.data.all (fun c => !(c = '\x00' || c = '\n' || c = '\r'))

/-- `headers.set(name, value)` on a `Headers` object, including the WHATWG
validation both the `Headers` constructor and `set` perform: a TypeError
is thrown when the name is not an HTTP token or the whitespace-stripped
value contains NUL, CR or LF (`Except.error` is that throw).  Otherwise
the pair is stored under the lower-cased name, overwriting an existing
entry in place or appending. -/
def headersSet (h : HeadersObj) (name value : String) : Except JSError HeadersObj :=
  if !isValidHeaderName name then
    .error (.other ("Invalid header name: " ++ name))
  else
    let v := normalizeHeaderValue value
    if !isValidHeaderValue v then
      .error (.other ("Invalid header value: " ++ v))
    else
      let k := asciiLower name
      .ok (if h.any (fun p => p.1 == k) then
        h.map (fun p => if p.1 == k then (k, v) else p)
      else h ++ [(k, v)])

/-- Embedding of the private `mergeHeaders` method: every source is poured
into one `Headers` object (`new Headers(src)` then `set`), so later
sources override earlier ones per (case-insensitive) header name.  The
constructor validates each pair, so the first invalid header makes the
merge throw; this happens outside any try/catch in the client. -/
def mergeHeaders (sources : List (List (String × String))) :
    Except JSError HeadersObj :=
  sources.foldlM (fun acc src => src.foldlM (fun a p => headersSet a p.1 p.2) acc) []

/-- Result of `Object.entries(headers)` when `headers` is a `Headers`
instance, as at every call site of `generateCacheKey` in the client.  A
`Headers` object keeps its header pairs in internal slots of the platform
object, not in own enumerable properties, so `Object.entries` returns the
empty array for every `Headers` instance regardless of its contents. -/
def headersInstanceEntries (_headers : HeadersObj) : List (String × String) := []

/-- Truncation to a signed 32-bit integer (`ToInt32`), the conversion the
JavaScript `<<` and `&` operators apply to their operands and result. -/
def toInt32 (n : Int) : Int :=
  let m := n % 4294967296
  if m ≥ 2147483648 then m - 4294967296 else m

/-- One step of the rolling hash: `hash = (hash << 5) - hash + char`
followed by `hash = hash & hash`, both computed on 32-bit integers. -/
def hashStep (hash : Int) (c : Nat) : Int :=
  toInt32 (toInt32 (hash * 32) - hash + c)

/-- Embedding of the private `hashCode` method: the polynomial rolling hash
over the character codes of the string, made non-negative with `Math.abs`.
Character codes are UTF-16 units, which coincide with code points on the
Basic Multilingual Plane (all inputs considered here are ASCII). -/
def hashCode (s : String) : Nat :=
  (s.data.foldl (fun h c => hashStep h c.toNat) 0).natAbs

/-- Embedding of the private `generateCacheKey` method.  `headers` is the
merged `Headers` object (or `none` when the argument is omitted); `body` is
the serialized body, with the undefined atom when absent.  The essential-
header filter operates on `Object.entries` of the `Headers` instance, which
is empty (see `headersInstanceEntries`), the filtered entries are sorted by
name (`localeCompare`, modelled as string order) and joined.  A truthy body
contributes either its `FormData` entries or the decimal rendering of its
rolling hash; a falsy body (undefined, or the empty string) contributes an
empty segment. -/
def generateCacheKey (url : String) (method : String) (headers : Option HeadersObj)
    (body : JSVal) : String :=
  let normalizedUrl := url
  let methodPart := asciiUpper method
  let essentialHeaders :=
    match headers with
    | some h =>
      String.intercalate "|"
        (((List.insertionSort (fun a b : String × String => a.1 ≤ b.1)
            ((headersInstanceEntries h).filter (fun p =>
              asciiLower p.1 == "authorization" ||
                asciiLower p.1 == "content-type")))).map
          (fun p => p.1 ++ ":" ++ p.2))
    | none => ""
  let bodyPart :=
    if jsTruthy body then
      match body with
      | .formData entries =>
        String.intercalate "|" (entries.map (fun p => p.1 ++ ":" ++ p.2.coerceString))
      | b => toString (hashCode (jsToString b))
    else ""
  methodPart ++ "|" ++ normalizedUrl ++ "|" ++ essentialHeaders ++ "|" ++ bodyPart

/-- A cache entry: the cached data, its creation timestamp and the computed
expiry instant.  The source type has `expiresAt` optional but every write
sets it; an absent or zero value is falsy in the read-time expiry check, so
`0` faithfully stands for both. -/
structure CacheEntry where
  data : JSVal
  timestamp : Nat
  expiresAt : Nat
deriving DecidableEq, Repr

/-- The cache `Map<string, CacheEntry>`: an association list in insertion
order with (invariantly) unique keys. -/
abbrev CacheMap := List (String × CacheEntry)

/-- Keys of a cache store, in iteration order. -/
def cacheKeys (c : CacheMap) : List String := c.map Prod.fst

/-- The `Map` invariant: one entry per key. -/
def NodupKeys (c : CacheMap) : Prop := (cacheKeys c).Nodup

/-- `map.get(key)`. -/
def mapLookup (c : CacheMap) (k : String) : Option CacheEntry :=
  match c.find? (fun p => p.1 == k) with
  | some p => some p.2
  | none => none

/-- `map.set(key, value)`: an existing binding is overwritten in place
(keeping its position in iteration order), otherwise the pair is appended. -/
def mapSet (c : CacheMap) (k : String) (v : CacheEntry) : CacheMap :=
  if c.any (fun p => p.1 == k) then
    c.map (fun p => if p.1 == k then (k, v) else p)
  else c ++ [(k, v)]

/-- `map.delete(key)`: removes the binding for the key.  Keys are unique in
a `Map`, so removing every pair with this key removes the single binding. -/
def mapDelete (c : CacheMap) (k : String) : CacheMap :=
  c.filter (fun p => p.1 != k)

/-- The batch delete loop of `cleanupCache`: one `map.delete` per key. -/
def deleteKeys (c : CacheMap) (ks : List String) : CacheMap :=
  ks.foldl mapDelete c

/-- The comparator `(a, b) => a[1].timestamp - b[1].timestamp` used by the
eviction sweep, as an ordering relation. -/
def byTimestamp (a b : String × CacheEntry) : Prop :=
  a.2.timestamp ≤ b.2.timestamp

instance : DecidableRel byTimestamp := fun a b => Nat.decLe a.2.timestamp b.2.timestamp

instance : IsTotal (String × CacheEntry) byTimestamp :=
  ⟨fun a b => Nat.le_total a.2.timestamp b.2.timestamp⟩

instance : IsTrans (String × CacheEntry) byTimestamp :=
  ⟨fun _ _ _ h h2 => Nat.le_trans h h2⟩

/-- Per-call retry configuration (the `onRetry` callback carries no data
relevant to the embedded behaviour and is omitted). -/
structure RetryConfig where
  count : Nat
  delay : Nat
deriving DecidableEq, Repr

/-- Cache policy of the client configuration. -/
structure CacheConfig where
  enabled : Bool
  maxAge : Nat
  maxCachedEntries : Nat
deriving DecidableEq, Repr

/-- The delete-response handling mode. -/
inductive DeleteHandling where
  | empty
  | status
  | json
deriving DecidableEq, Repr

/-- The resolved client configuration (every field filled in by the
constructor). -/
structure TFetchConfig where
  debug : Bool
  headers : List (String × String)
  deleteHandling : DeleteHandling
  retry : RetryConfig
  cache : CacheConfig
deriving DecidableEq, Repr

/-- Per-request cache overrides. -/
structure RequestCacheOptions where
  maxAge : Option Nat
  enabled : Option Bool
deriving DecidableEq, Repr

/-- Embedding of the private `cleanupCache` method.  When the store has
reached `maxCachedEntries`, the entries are sorted by timestamp ascending
(`Array.prototype.sort` is stable, and `insertionSort` is the stable sort)
and the oldest `Math.floor(size * 0.25)` keys are deleted.  Since `0.25`
is a dyadic float and sizes stay far below `2^52`, the floor equals `size
 / 4` in natural division. -/
def cleanupCache (cfg : TFetchConfig) (cache : CacheMap) : CacheMap :=
  let maxEntries := cfg.cache.maxCachedEntries
  if cache.length ≥ maxEntries then
    let entriesToDelete :=
      ((List.insertionSort byTimestamp cache).take (cache.length / 4)).map Prod.fst
    deleteKeys cache entriesToDelete
  else cache

/-- Embedding of the private `saveToCache` method: cleanup, then insert the
fresh entry.  The two `Date.now()` reads of the source happen in the same
tick and are both `now`. -/
def saveToCache (cfg : TFetchConfig) (cache : CacheMap) (key : String) (data : JSVal)
    (now : Nat) (customMaxAge : Option Nat) : CacheMap :=
  let cleaned := cleanupCache cfg cache
  let maxAge := customMaxAge.getD cfg.cache.maxAge
  mapSet cleaned key ⟨data, now, now + maxAge⟩

/-- Embedding of the private `getFromCache` method: returns the entry data
(`none` standing for the returned `null`) and the possibly mutated store
(lazy expiry deletes the entry it finds expired). -/
def getFromCache (cache : CacheMap) (key : String) (now : Nat) :
    Option JSVal × CacheMap :=
  match mapLookup cache key with
  | none => (none, cache)
  | some entry =>
    if entry.expiresAt ≠ 0 ∧ now > entry.expiresAt then (none, mapDelete cache key)
    else (some entry.data, cache)

instance {ε α : Type} [DecidableEq ε] [DecidableEq α] : DecidableEq (Except ε α) :=
  fun x y =>
    match x, y with
    | .ok a, .ok b =>
      if h : a = b then isTrue (by rw [h]) else isFalse (fun hc => h (Except.ok.inj hc))
    | .error a, .error b =>
      if h : a = b then isTrue (by rw [h]) else isFalse (fun hc => h (Except.error.inj hc))
    | .ok _, .error _ => isFalse (fun hc => Except.noConfusion hc)
    | .error _, .ok _ => isFalse (fun hc => Except.noConfusion hc)

/-- A response descriptor as consumed by the executor: `ok`, `status`, the
`Content-Length` header, and the body-reading results.  `text` is the
resolved body text; `json` is the result of `res.json()`, whose `error`
case is the decode rejection. -/
structure Response where
  ok : Bool
  status : Nat
  contentLength : Option String
  text : String
  json : Except JSError JSVal
deriving DecidableEq, Repr

/-- Decoded response data as stored in `Result.data`: a JSON body that
decodes to `null` is the `null` value of the untagged TS union, hence
`none`. -/
def optOfNull (v : JSVal) : Option JSVal :=
  match v with
  | .atom .jnull => none
  | _ => some v

/-- One iteration of the `try` block of `handleRequest` at a given attempt
index: awaiting the transport, the non-ok early return, the DELETE
handling branch, and the JSON decode.  `Except.error` is an exception
propagating to the `catch` clause (a transport rejection or a body decode
rejection). -/
def attemptOnce (transport : Nat → Except JSError Response) (method : String)
    (dh : DeleteHandling) (attempts : Nat) : Except JSError ResultJ :=
  match transport attempts with
  | .error e => .error e
  | .ok res =>
    if res.ok = false then
      .ok ⟨none, some ⟨res.text, some res.status⟩⟩
    else if method = "DELETE" ∧ res.contentLength = some "0" then
      match dh with
      | .empty => .ok ⟨none, none⟩
      | .status => .ok ⟨some (.atom (.jnum res.status)), none⟩
      | .json =>
        match res.json with
        | .ok v => .ok ⟨optOfNull v, none⟩
        | .error _ => .ok ⟨none, none⟩
    else
      match res.json with
      | .ok v => .ok ⟨optOfNull v, none⟩
      | .error e => .error e

/-- The result returned when the `while` loop guard fails (dead code in the
source, kept for fidelity). -/
def maxRetriesResult : ResultJ := ⟨none, some ⟨"Max retries exceeded", none⟩⟩

/-- The terminal error built in the `catch` clause once the retry budget is
exhausted: the last error message (or the fallback when it is empty) and
the status when the error was itself a `TFetchError`. -/
def terminalError (e : JSError) : ResultJ :=
  ⟨none, some ⟨(if e.message = "" then "Request failed after max retries" else e.message),
    e.statusIfTFetch⟩⟩

/-- The retry loop of `handleRequest`, returning the result together with
the number of transport attempts performed.  `fuel` is an upper bound on
the remaining iterations; the loop variable `attempts` increases strictly
on the looping path, so the loop performs at most `maxRetries + 1 -
attempts` iterations and the initial fuel `maxRetries + 1` is never
exhausted before the guard `attempts <= maxRetries` fails. -/
def handleLoop (transport : Nat → Except JSError Response) (method : String)
    (dh : DeleteHandling) (maxRetries : Nat) : Nat → Nat → ResultJ × Nat
  | 0, _ => (maxRetriesResult, 0)
  | fuel + 1, attempts =>
    if attempts > maxRetries then (maxRetriesResult, 0)
    else
      match attemptOnce transport method dh attempts with
      | .ok r => (r, 1)
      | .error e =>
        if attempts < maxRetries then
          let rest := handleLoop transport method dh maxRetries fuel (attempts + 1)
          (rest.1, rest.2 + 1)
        else (terminalError e, 1)

/-- Embedding of the private `handleRequest` method: the retry loop started
at `attempts = 0`, together with the count of transport attempts made. -/
def handleRequest (transport : Nat → Except JSError Response) (method : String)
    (dh : DeleteHandling) (maxRetries : Nat) : ResultJ × Nat :=
  handleLoop transport method dh maxRetries (maxRetries + 1) 0

/-- The shared body of the body-less verbs (GET/DELETE/HEAD): merge headers,
compute the cache key, resolve the per-call cache configuration, consult
the cache (early return on a truthy hit), run the executor, and store a
truthy result when caching is on.  The triple carries the `Result`, the
number of transport attempts made, and the cache store after the call.
These functions are `async`; `Except.error` is a rejected promise (on this
path only the header merge can throw — every later failure is normalised
by the executor). -/
def requestNoBody (cfg : TFetchConfig) (cache : CacheMap) (now : Nat)
    (transport : Nat → Except JSError Response) (method : String) (url : String)
    (optHeaders : Option (List (String × String)))
    (optCache : Option RequestCacheOptions) :
    Except JSError (ResultJ × Nat × CacheMap) :=
  match mergeHeaders [cfg.headers, optHeaders.getD []] with
  | .error e => .error e
  | .ok mergedHeaders =>
    let ckey := generateCacheKey url method (some mergedHeaders) (.atom .jundef)
    let cacheEnabled := (optCache.bind RequestCacheOptions.enabled).getD cfg.cache.enabled
    let cacheMaxAge := (optCache.bind RequestCacheOptions.maxAge).getD cfg.cache.maxAge
    let lookup := if cacheEnabled then getFromCache cache ckey now else (none, cache)
    if jsTruthyOpt lookup.1 then .ok (⟨lookup.1, none⟩, 0, lookup.2)
    else
      let hr := handleRequest transport method cfg.deleteHandling cfg.retry.count
      let cache2 :=
        if cacheEnabled ∧ jsTruthyOpt hr.1.data then
          saveToCache cfg lookup.2 ckey (hr.1.data.getD (.atom .jnull)) now
            (some cacheMaxAge)
        else lookup.2
      .ok (hr.1, hr.2, cache2)

/-- The shared body of the verbs with a body (POST/PUT/PATCH): as
`requestNoBody`, but the content-type default headers join the merge, and
the body is prepared and serialized before the cache key is computed.  The
header merge runs first and its throw, like a body preparation or
serialization throw, makes the whole call reject (`Except.error`); the
serialized body feeds the cache key. -/
def requestWithBody (cfg : TFetchConfig) (cache : CacheMap) (now : Nat)
    (transport : Nat → Except JSError Response) (method : String) (url : String)
    (body : ContentWrapper) (optHeaders : Option (List (String × String)))
    (optCache : Option RequestCacheOptions) :
    Except JSError (ResultJ × Nat × CacheMap) :=
  match mergeHeaders [cfg.headers, getHeadersFor body.type, optHeaders.getD []] with
  | .error e => .error e
  | .ok mergedHeaders =>
  match prepareBody body with
  | .error e => .error e
  | .ok actualBody =>
    match serializeBody actualBody with
    | .error e => .error e
    | .ok serialized =>
      let ckey := generateCacheKey url method (some mergedHeaders) serialized
      let cacheEnabled :=
        (optCache.bind RequestCacheOptions.enabled).getD cfg.cache.enabled
      let cacheMaxAge := (optCache.bind RequestCacheOptions.maxAge).getD cfg.cache.maxAge
      let lookup := if cacheEnabled then getFromCache cache ckey now else (none, cache)
      if jsTruthyOpt lookup.1 then .ok (⟨lookup.1, none⟩, 0, lookup.2)
      else
        let hr := handleRequest transport method cfg.deleteHandling cfg.retry.count
        let cache2 :=
          if cacheEnabled ∧ jsTruthyOpt hr.1.data then
            saveToCache cfg lookup.2 ckey (hr.1.data.getD (.atom .jnull)) now
              (some cacheMaxAge)
          else lookup.2
        .ok (hr.1, hr.2, cache2)

namespace TFetchClient

/-- Public `get`. -/
def get (cfg : TFetchConfig) (cache : CacheMap) (now : Nat)
    (transport : Nat → Except JSError Response) (url : String)
    (optHeaders : Option (List (String × String)))
    (optCache : Option RequestCacheOptions) :
    Except JSError (ResultJ × Nat × CacheMap) :=
  requestNoBody cfg cache now transport "GET" url optHeaders optCache

/-- Public `delete`. -/
def delete (cfg : TFetchConfig) (cache : CacheMap) (now : Nat)
    (transport : Nat → Except JSError Response) (url : String)
    (optHeaders : Option (List (String × String)))
    (optCache : Option RequestCacheOptions) :
    Except JSError (ResultJ × Nat × CacheMap) :=
  requestNoBody cfg cache now transport "DELETE" url optHeaders optCache

/-- Public `head`. -/
def head (cfg : TFetchConfig) (cache : CacheMap) (now : Nat)
    (transport : Nat → Except JSError Response) (url : String)
    (optHeaders : Option (List (String × String)))
    (optCache : Option RequestCacheOptions) :
    Except JSError (ResultJ × Nat × CacheMap) :=
  requestNoBody cfg cache now transport "HEAD" url optHeaders optCache

/-- Public `post`. -/
def post (cfg : TFetchConfig) (cache : CacheMap) (now : Nat)
    (transport : Nat → Except JSError Response) (url : String)
    (body : ContentWrapper) (optHeaders : Option (List (String × String)))
    (optCache : Option RequestCacheOptions) :
    Except JSError (ResultJ × Nat × CacheMap) :=
  requestWithBody cfg cache now transport "POST" url body optHeaders optCache

/-- Public `put`. -/
def put (cfg : TFetchConfig) (cache : CacheMap) (now : Nat)
    (transport : Nat → Except JSError Response) (url : String)
    (body : ContentWrapper) (optHeaders : Option (List (String × String)))
    (optCache : Option RequestCacheOptions) :
    Except JSError (ResultJ × Nat × CacheMap) :=
  requestWithBody cfg cache now transport "PUT" url body optHeaders optCache

/-- Public `patch`. -/
def patch (cfg : TFetchConfig) (cache : CacheMap) (now : Nat)
    (transport : Nat → Except JSError Response) (url : String)
    (body : ContentWrapper) (optHeaders : Option (List (String × String)))
    (optCache : Option RequestCacheOptions) :
    Except JSError (ResultJ × Nat × CacheMap) :=
  requestWithBody cfg cache now transport "PATCH" url body optHeaders optCache

end TFetchClient

/-- One recorded `saveToCache` call: key, data, call instant, custom max
age. -/
structure SaveOp where
  key : String
  data : JSVal
  now : Nat
  maxAge : Option Nat
deriving DecidableEq, Repr

/-- A sequence of cache insertions applied to the empty store. -/
def applySaves (cfg : TFetchConfig) (ops : List SaveOp) : CacheMap :=
  ops.foldl (fun c op => saveToCache cfg c op.key op.data op.now op.maxAge) []

/-- Projection of a completed call to its `Result` (absent on a rejected
call). -/
def callResult (x : Except JSError (ResultJ × Nat × CacheMap)) : Option ResultJ :=
  match x with
  | .ok (r, _, _) => some r
  | .error _ => none

/-- Projection of a completed call to its transport attempt count (absent on
a rejected call). -/
def callAttempts (x : Except JSError (ResultJ × Nat × CacheMap)) : Option Nat :=
  match x with
  | .ok (_, n, _) => some n
  | .error _ => none

/-- The configuration produced by the constructor with no options: the
documented defaults. -/
def cfgBase : TFetchConfig :=
  ⟨false, [], .empty, ⟨0, 1000⟩, ⟨false, 300000, 5000⟩⟩

/-- Defaults with caching on and a cache limit of two entries. -/
def cfgMax2 : TFetchConfig := { cfgBase with cache := ⟨true, 300000, 2⟩ }

/-- Defaults with caching on and a cache limit of four entries. -/
def cfgMax4 : TFetchConfig := { cfgBase with cache := ⟨true, 300000, 4⟩ }

/-- Defaults with caching on at the default limit. -/
def cfgCacheOn : TFetchConfig := { cfgBase with cache := ⟨true, 300000, 5000⟩ }

/-- A 204 response with a zero Content-Length and an empty, undecodable
body. -/
def resOkCL0 : Response :=
  ⟨true, 204, some "0", "", .error (.other "Unexpected end of JSON input")⟩

/-- A response with a zero Content-Length whose body still decodes. -/
def resCL0J : Response := ⟨true, 200, some "0", "", .ok (.atom (.jnum 9))⟩

/-- An ordinary ok response with a decodable JSON body. -/
def resOkPlain : Response := ⟨true, 200, none, "", .ok (.atom (.jnum 7))⟩

/-- A non-ok response carrying an error body. -/
def resBad : Response := ⟨false, 500, none, "Internal Server Error", .error (.other "x")⟩

/-- Transports used in the concrete evaluations. -/
def trOkCL0 : Nat → Except JSError Response := fun _ => .ok resOkCL0

def trCL0J : Nat → Except JSError Response := fun _ => .ok resCL0J

def trOkPlain : Nat → Except JSError Response := fun _ => .ok resOkPlain

def trAllFail : Nat → Except JSError Response := fun _ => .error (.other "network down")

def trFailFailOk : Nat → Except JSError Response :=
  fun i => if i < 2 then .error (.other "boom") else .ok resOkPlain

def trBad : Nat → Except JSError Response := fun _ => .ok resBad

/-- Three insertions with distinct keys. -/
def opsThree : List SaveOp :=
  [⟨"a", .atom (.jnum 1), 0, none⟩, ⟨"b", .atom (.jnum 2), 1, none⟩,
   ⟨"c", .atom (.jnum 3), 2, none⟩]

/-- Six insertions with distinct keys. -/
def opsSix : List SaveOp :=
  [⟨"a", .atom (.jnum 1), 0, none⟩, ⟨"b", .atom (.jnum 2), 1, none⟩,
   ⟨"c", .atom (.jnum 3), 2, none⟩, ⟨"d", .atom (.jnum 4), 3, none⟩,
   ⟨"e", .atom (.jnum 5), 4, none⟩, ⟨"f", .atom (.jnum 6), 5, none⟩]

/-- A four-entry store with out-of-order timestamps. -/
def cacheFour : CacheMap :=
  [("a", ⟨.atom (.jnum 1), 3, 10⟩), ("b", ⟨.atom (.jnum 2), 1, 10⟩),
   ("c", ⟨.atom (.jnum 3), 2, 10⟩), ("d", ⟨.atom (.jnum 4), 0, 10⟩)]

/-- A two-entry store. -/
def cacheTwo : CacheMap :=
  [("a", ⟨.atom (.jnum 1), 5, 10⟩), ("b", ⟨.atom (.jnum 2), 3, 10⟩)]

/-- An unexpired cache entry holding the falsy value `0`. -/
def entryFalsy : CacheEntry := ⟨.atom (.jnum 0), 0, 100⟩

/-- The cache key the client computes for a GET of `https://x` with no
extra headers under `cfgCacheOn` (the merged Headers object is empty). -/
def falsyKey : String :=
  generateCacheKey "https://x" "GET" (some ([] : HeadersObj)) (.atom .jundef)

/-- A store holding the falsy entry under that key. -/
def cacheFalsy : CacheMap := [(falsyKey, entryFalsy)]


theorem nodupKeys_filter (c : CacheMap) (p : String × CacheEntry → Bool)
    (h : NodupKeys c) : NodupKeys (c.filter p) :=
  List.Nodup.sublist (List.Sublist.map Prod.fst (List.filter_sublist c)) h

theorem deleteKeys_eq_filter : ∀ (ks : List String) (c : CacheMap),
    deleteKeys c ks = c.filter (fun p => !ks.contains p.1)
  | [], c => by
    simp [deleteKeys, List.filter_eq_self]
  | k :: ks, c => by
    have ih := deleteKeys_eq_filter ks (mapDelete c k)
    simp only [deleteKeys, List.foldl_cons] at ih ⊢
    rw [ih]
    simp only [mapDelete, List.filter_filter]
    apply List.filter_congr
    intro a _
    by_cases hk : a.1 = k
    · simp [hk, List.contains_cons]
    · simp [hk, List.contains_cons, bne_iff_ne, Bool.and_comm]

theorem cleanupCache_of_lt (cfg : TFetchConfig) (c : CacheMap)
    (h : c.length < cfg.cache.maxCachedEntries) : cleanupCache cfg c = c := by
  simp only [cleanupCache]
  rw [if_neg (by omega)]

theorem cleanupCache_of_ge (cfg : TFetchConfig) (c : CacheMap)
    (h : cfg.cache.maxCachedEntries ≤ c.length) :
    cleanupCache cfg c =
      c.filter (fun p =>
        !(((List.insertionSort byTimestamp c).take (c.length / 4)).map
            Prod.fst).contains p.1) := by
  simp only [cleanupCache]
  rw [if_pos h, deleteKeys_eq_filter]

theorem sortKeys_nodup (c : CacheMap) (h : NodupKeys c) :
    ((List.insertionSort byTimestamp c).map Prod.fst).Nodup :=
  (((List.perm_insertionSort byTimestamp c).map Prod.fst).nodup_iff).mpr h

theorem length_filter_split {α : Type} (l : List α) (n : Nat) (p : α → Bool)
    (h1 : ∀ a ∈ l.take n, p a = false) (h2 : ∀ a ∈ l.drop n, p a = true)
    (_hn : n ≤ l.length) : (l.filter p).length = l.length - n := by
  conv_lhs => rw [← List.take_append_drop n l]
  rw [List.filter_append, List.filter_eq_nil_iff.mpr (fun a ha => by simp [h1 a ha]),
    List.filter_eq_self.mpr h2, List.nil_append, List.length_drop]

theorem takeSort_pred_false (c : CacheMap) (n : Nat) :
    ∀ a ∈ (List.insertionSort byTimestamp c).take n,
      (!(((List.insertionSort byTimestamp c).take n).map Prod.fst).contains a.1) = false := by
  intro a ha
  simp only [Bool.not_eq_false']
  exact List.elem_iff.mpr (List.mem_map_of_mem Prod.fst ha)

theorem dropSort_pred_true (c : CacheMap) (n : Nat) (h : NodupKeys c) :
    ∀ a ∈ (List.insertionSort byTimestamp c).drop n,
      (!(((List.insertionSort byTimestamp c).take n).map Prod.fst).contains a.1) = true := by
  intro a ha
  have hnd := sortKeys_nodup c h
  rw [← List.take_append_drop n (List.insertionSort byTimestamp c), List.map_append] at hnd
  have hdisj := (List.nodup_append.mp hnd).2.2
  simp only [Bool.not_eq_true', ← Bool.not_eq_true, List.elem_iff]
  intro hmem
  exact hdisj hmem (List.mem_map_of_mem Prod.fst ha)

theorem cleanup_length_of_ge (cfg : TFetchConfig) (c : CacheMap) (h : NodupKeys c)
    (hge : cfg.cache.maxCachedEntries ≤ c.length) :
    (cleanupCache cfg c).length = c.length - c.length / 4 := by
  rw [cleanupCache_of_ge cfg c hge]
  have hperm := ((List.perm_insertionSort byTimestamp c).filter (fun p =>
    !(((List.insertionSort byTimestamp c).take (c.length / 4)).map
        Prod.fst).contains p.1)).symm
  rw [hperm.length_eq]
  rw [length_filter_split _ _ _ (takeSort_pred_false c _) (dropSort_pred_true c _ h)
    (by rw [List.length_insertionSort]; omega)]
  rw [List.length_insertionSort]

theorem cleanup_nodup (cfg : TFetchConfig) (c : CacheMap) (h : NodupKeys c) :
    NodupKeys (cleanupCache cfg c) := by
  by_cases hge : cfg.cache.maxCachedEntries ≤ c.length
  · rw [cleanupCache_of_ge cfg c hge]
    exact nodupKeys_filter c _ h
  · rw [cleanupCache_of_lt cfg c (by omega)]
    exact h

theorem length_mapSet_le (c : CacheMap) (k : String) (v : CacheEntry) :
    (mapSet c k v).length ≤ c.length + 1 := by
  simp only [mapSet]
  split
  · rw [List.length_map]
    omega
  · rw [List.length_append, List.length_cons, List.length_nil]

theorem nodupKeys_mapSet (c : CacheMap) (k : String) (v : CacheEntry)
    (h : NodupKeys c) : NodupKeys (mapSet c k v) := by
  simp only [mapSet]
  split
  · have heq : (c.map (fun p => if p.1 == k then (k, v) else p)).map Prod.fst =
        c.map Prod.fst := by
      rw [List.map_map]
      apply List.map_congr_left
      intro p _
      by_cases hk : p.1 == k
      · simp only [Function.comp, hk, if_pos]
        exact (eq_of_beq hk).symm
      · simp only [Function.comp, hk, if_neg]
        rfl
    unfold NodupKeys cacheKeys
    rw [heq]
    exact h
  · rename_i hany
    unfold NodupKeys cacheKeys
    rw [List.map_append, List.nodup_append]
    refine ⟨h, List.nodup_singleton k, ?_⟩
    intro a ha hmem
    simp only [List.map_cons, List.map_nil, List.mem_singleton] at hmem
    subst hmem
    rcases List.mem_map.mp ha with ⟨p, hp, hfst⟩
    rw [List.any_eq_true] at hany
    exact hany ⟨p, hp, by rw [hfst]; exact beq_self_eq_true a⟩

theorem saveToCache_bound (cfg : TFetchConfig) (c : CacheMap) (k : String) (v : JSVal)
    (now : Nat) (ma : Option Nat) (h4 : 4 ≤ cfg.cache.maxCachedEntries)
    (hnd : NodupKeys c) (hlen : c.length ≤ cfg.cache.maxCachedEntries) :
    NodupKeys (saveToCache cfg c k v now ma) ∧
      (saveToCache cfg c k v now ma).length ≤ cfg.cache.maxCachedEntries := by
  simp only [saveToCache]
  constructor
  · exact nodupKeys_mapSet _ _ _ (cleanup_nodup cfg c hnd)
  · have hm := length_mapSet_le (cleanupCache cfg c) k
      ⟨v, now, now + ma.getD cfg.cache.maxAge⟩
    by_cases hge : cfg.cache.maxCachedEntries ≤ c.length
    · have hcl := cleanup_length_of_ge cfg c hnd hge
      omega
    · rw [cleanupCache_of_lt cfg c (by omega)] at hm ⊢
      omega

theorem applySaves_bound (cfg : TFetchConfig) (h4 : 4 ≤ cfg.cache.maxCachedEntries) :
    ∀ (ops : List SaveOp) (c : CacheMap), NodupKeys c →
      c.length ≤ cfg.cache.maxCachedEntries →
      NodupKeys (ops.foldl (fun c op => saveToCache cfg c op.key op.data op.now op.maxAge) c) ∧
        (ops.foldl (fun c op => saveToCache cfg c op.key op.data op.now op.maxAge) c).length ≤
          cfg.cache.maxCachedEntries
  | [], _, hnd, hlen => ⟨hnd, hlen⟩
  | op :: ops, c, hnd, hlen => by
    rw [List.foldl_cons]
    have hstep := saveToCache_bound cfg c op.key op.data op.now op.maxAge h4 hnd hlen
    exact applySaves_bound cfg h4 ops _ hstep.1 hstep.2

theorem attemptOnce_transport_error (transport : Nat → Except JSError Response)
    (method : String) (dh : DeleteHandling) (a : Nat) (e : JSError)
    (h : transport a = .error e) : attemptOnce transport method dh a = .error e := by
  unfold attemptOnce
  rw [h]

theorem attemptOnce_notOk (transport : Nat → Except JSError Response)
    (method : String) (dh : DeleteHandling) (a : Nat) (res : Response)
    (htr : transport a = .ok res) (hok : res.ok = false) :
    attemptOnce transport method dh a = .ok ⟨none, some ⟨res.text, some res.status⟩⟩ := by
  simp [attemptOnce, htr, hok]

theorem attemptOnce_ok_plain (transport : Nat → Except JSError Response)
    (method : String) (dh : DeleteHandling) (a : Nat) (res : Response)
    (htr : transport a = .ok res) (hok : res.ok = true)
    (hnd : ¬(method = "DELETE" ∧ res.contentLength = some "0")) :
    attemptOnce transport method dh a =
      (match res.json with
       | .ok v => .ok ⟨optOfNull v, none⟩
       | .error e => .error e) := by
  simp only [attemptOnce, htr, hok, Bool.true_eq_false, if_false, if_neg hnd]

theorem attemptOnce_delete_cl0 (transport : Nat → Except JSError Response)
    (dh : DeleteHandling) (a : Nat) (res : Response)
    (htr : transport a = .ok res) (hok : res.ok = true)
    (hcl : res.contentLength = some "0") :
    attemptOnce transport "DELETE" dh a =
      (match dh with
       | .empty => .ok ⟨none, none⟩
       | .status => .ok ⟨some (.atom (.jnum res.status)), none⟩
       | .json =>
         match res.json with
         | .ok v => .ok ⟨optOfNull v, none⟩
         | .error _ => .ok ⟨none, none⟩) := by
  simp only [attemptOnce, htr, hok, Bool.true_eq_false, if_false, eq_self_iff_true,
    true_and]
  rw [if_pos hcl]

theorem handleLoop_ok (transport : Nat → Except JSError Response) (method : String)
    (dh : DeleteHandling) (N fuel a : Nat) (r : ResultJ)
    (ha : a ≤ N) (h : attemptOnce transport method dh a = .ok r) :
    handleLoop transport method dh N (fuel + 1) a = (r, 1) := by
  simp only [handleLoop, h]
  rw [if_neg (show ¬ a > N by omega)]

theorem handleLoop_err_last (transport : Nat → Except JSError Response) (method : String)
    (dh : DeleteHandling) (N fuel a : Nat) (e : JSError)
    (ha : a = N) (h : attemptOnce transport method dh a = .error e) :
    handleLoop transport method dh N (fuel + 1) a = (terminalError e, 1) := by
  simp only [handleLoop, h]
  rw [if_neg (show ¬ a > N by omega), if_neg (show ¬ a < N by omega)]

theorem handleLoop_err_retry (transport : Nat → Except JSError Response) (method : String)
    (dh : DeleteHandling) (N fuel a : Nat) (e : JSError)
    (ha : a < N) (h : attemptOnce transport method dh a = .error e) :
    handleLoop transport method dh N (fuel + 1) a =
      ((handleLoop transport method dh N fuel (a + 1)).1,
        (handleLoop transport method dh N fuel (a + 1)).2 + 1) := by
  simp only [handleLoop, h]
  rw [if_neg (show ¬ a > N by omega), if_pos ha]

theorem handleLoop_count_le (transport : Nat → Except JSError Response) (method : String)
    (dh : DeleteHandling) (N : Nat) :
    ∀ (fuel a : Nat), (handleLoop transport method dh N fuel a).2 ≤ fuel
  | 0, _ => Nat.le_refl 0
  | fuel + 1, a => by
    unfold handleLoop
    split
    · omega
    · cases h : attemptOnce transport method dh a with
      | ok r => simp
      | error e =>
        simp only
        split
        · have := handleLoop_count_le transport method dh N fuel (a + 1)
          omega
        · omega

theorem handleRequest_count_le (transport : Nat → Except JSError Response)
    (method : String) (dh : DeleteHandling) (N : Nat) :
    (handleRequest transport method dh N).2 ≤ N + 1 :=
  handleLoop_count_le transport method dh N (N + 1) 0

theorem handleRequest_count_pos (transport : Nat → Except JSError Response)
    (method : String) (dh : DeleteHandling) (N : Nat) :
    1 ≤ (handleRequest transport method dh N).2 := by
  unfold handleRequest handleLoop
  rw [if_neg (by omega)]
  cases h : attemptOnce transport method dh 0 with
  | ok r => simp
  | error e =>
    simp only
    split
    · simp
    · simp

theorem handleLoop_allfail (transport : Nat → Except JSError Response) (method : String)
    (dh : DeleteHandling) (N : Nat) (hf : ∀ i, ∃ e, transport i = .error e) :
    ∀ (fuel a : Nat), a + fuel = N + 1 →
      (handleLoop transport method dh N fuel a).2 = fuel ∧
        (handleLoop transport method dh N fuel a).1.data = none ∧
        (handleLoop transport method dh N fuel a).1.error.isSome = true
  | 0, a, _ => by
    unfold handleLoop
    exact ⟨rfl, rfl, rfl⟩
  | fuel + 1, a, hsum => by
    rcases hf a with ⟨e, he⟩
    have hatt := attemptOnce_transport_error transport method dh a e he
    by_cases hlt : a < N
    · rw [handleLoop_err_retry transport method dh N fuel a e hlt hatt]
      have ih := handleLoop_allfail transport method dh N hf fuel (a + 1) (by omega)
      exact ⟨by rw [ih.1], ih.2.1, ih.2.2⟩
    · have ha : a = N := by omega
      rw [handleLoop_err_last transport method dh N fuel a e ha hatt]
      have hfuel : fuel = 0 := by omega
      subst hfuel
      exact ⟨rfl, rfl, rfl⟩

theorem attemptOnce_ok_excl (transport : Nat → Except JSError Response)
    (method : String) (dh : DeleteHandling) (a : Nat) (r : ResultJ)
    (h : attemptOnce transport method dh a = .ok r) :
    r.data = none ∨ r.error = none := by
  unfold attemptOnce at h
  repeat' split at h
  all_goals
    first
    | exact Except.noConfusion h
    | (injection h with h; subst h; simp)

theorem handleLoop_excl (transport : Nat → Except JSError Response) (method : String)
    (dh : DeleteHandling) (N : Nat) :
    ∀ (fuel a : Nat), (handleLoop transport method dh N fuel a).1.data = none ∨
      (handleLoop transport method dh N fuel a).1.error = none
  | 0, _ => by simp [handleLoop, maxRetriesResult]
  | fuel + 1, a => by
    by_cases hgt : a > N
    · unfold handleLoop
      rw [if_pos hgt]
      simp [maxRetriesResult]
    · cases hatt : attemptOnce transport method dh a with
      | ok r =>
        rw [handleLoop_ok transport method dh N fuel a r (by omega) hatt]
        simpa using attemptOnce_ok_excl transport method dh a r hatt
      | error e =>
        by_cases hlt : a < N
        · rw [handleLoop_err_retry transport method dh N fuel a e hlt hatt]
          simpa using handleLoop_excl transport method dh N fuel (a + 1)
        · rw [handleLoop_err_last transport method dh N fuel a e (by omega) hatt]
          simp [terminalError]

theorem handleRequest_excl (transport : Nat → Except JSError Response) (method : String)
    (dh : DeleteHandling) (N : Nat) :
    (handleRequest transport method dh N).1.data = none ∨
      (handleRequest transport method dh N).1.error = none :=
  handleLoop_excl transport method dh N (N + 1) 0

theorem requestNoBody_error_iff (cfg : TFetchConfig) (cache : CacheMap) (now : Nat)
    (transport : Nat → Except JSError Response) (method url : String)
    (optHeaders : Option (List (String × String)))
    (optCache : Option RequestCacheOptions) (e : JSError) :
    requestNoBody cfg cache now transport method url optHeaders optCache = .error e ↔
      mergeHeaders [cfg.headers, optHeaders.getD []] = .error e := by
  cases hm : mergeHeaders [cfg.headers, optHeaders.getD []] with
  | error e0 => simp [requestNoBody, hm]
  | ok hdrs =>
    simp only [requestNoBody, hm]
    constructor
    · intro h
      repeat' split at h
      all_goals simp at h
    · intro h
      simp at h

theorem requestNoBody_ok_excl (cfg : TFetchConfig) (cache : CacheMap) (now : Nat)
    (transport : Nat → Except JSError Response) (method url : String)
    (optHeaders : Option (List (String × String)))
    (optCache : Option RequestCacheOptions) (r : ResultJ) (n : Nat) (c2 : CacheMap)
    (h : requestNoBody cfg cache now transport method url optHeaders optCache =
      .ok (r, n, c2)) : r.data = none ∨ r.error = none := by
  simp only [requestNoBody] at h
  repeat' split at h
  all_goals
    first
    | exact Except.noConfusion h
    | (injection h with h
       rw [Prod.mk.injEq] at h
       rw [← h.1]
       first
         | exact Or.inr rfl
         | exact handleRequest_excl transport method cfg.deleteHandling cfg.retry.count)

theorem requestWithBody_ok_excl (cfg : TFetchConfig) (cache : CacheMap) (now : Nat)
    (transport : Nat → Except JSError Response) (method url : String)
    (body : ContentWrapper) (optHeaders : Option (List (String × String)))
    (optCache : Option RequestCacheOptions) (r : ResultJ) (n : Nat) (c2 : CacheMap)
    (h : requestWithBody cfg cache now transport method url body optHeaders optCache =
      .ok (r, n, c2)) : r.data = none ∨ r.error = none := by
  simp only [requestWithBody] at h
  repeat' split at h
  all_goals
    first
    | exact Except.noConfusion h
    | (injection h with h
       rw [Prod.mk.injEq] at h
       rw [← h.1]
       first
         | exact Or.inr rfl
         | exact handleRequest_excl transport method cfg.deleteHandling cfg.retry.count)

theorem requestWithBody_error_of_mergeErr (cfg : TFetchConfig) (cache : CacheMap)
    (now : Nat) (transport : Nat → Except JSError Response) (method url : String)
    (body : ContentWrapper) (optHeaders : Option (List (String × String)))
    (optCache : Option RequestCacheOptions) (e : JSError)
    (hm : mergeHeaders [cfg.headers, getHeadersFor body.type, optHeaders.getD []] =
      .error e) :
    requestWithBody cfg cache now transport method url body optHeaders optCache =
      .error e := by
  simp [requestWithBody, hm]

theorem requestWithBody_error_iff_of_mergeOk (cfg : TFetchConfig) (cache : CacheMap)
    (now : Nat) (transport : Nat → Except JSError Response) (method url : String)
    (body : ContentWrapper) (optHeaders : Option (List (String × String)))
    (optCache : Option RequestCacheOptions) (hdrs : HeadersObj) (e : JSError)
    (hm : mergeHeaders [cfg.headers, getHeadersFor body.type, optHeaders.getD []] =
      .ok hdrs) :
    requestWithBody cfg cache now transport method url body optHeaders optCache =
      .error e ↔ bodyPipeline body = .error e := by
  unfold bodyPipeline
  simp only [requestWithBody, hm]
  cases hp : prepareBody body with
  | error e0 => simp [hp]
  | ok prepared =>
    cases hs : serializeBody prepared with
    | error e0 => simp [hp, hs]
    | ok serialized =>
      simp only [hp, hs]
      constructor
      · intro h
        repeat' split at h
        all_goals simp at h
      · intro h
        simp at h

/-- Claim C1, counterexample: under the default configuration (delete
handling mode `empty`) a completed public DELETE whose ok response carries
a zero Content-Length returns the Result with data and error both null,
refuting the claim that exactly one of the two fields is always non-null. -/
theorem c1_counterexample :
    TFetchClient.delete cfgBase [] 0 trOkCL0 "https://x" none none =
      .ok (⟨none, none⟩, 1, []) ∧ cfgBase.deleteHandling = .empty :=
  ⟨rfl, rfl⟩

/-- Claim C1, amended: for every completed public operation
(get/post/put/patch/delete/head), at most one of the two Result fields is
non-null — no result ever has both data and error non-null; both fields can
however be null at once (zero-Content-Length DELETE responses under modes
`empty` and `json`, and JSON bodies decoding to null). -/
theorem c1_theorem :
    (∀ cfg cache now transport url oh oc r n c2,
      TFetchClient.get cfg cache now transport url oh oc = .ok (r, n, c2) →
        r.data = none ∨ r.error = none) ∧
    (∀ cfg cache now transport url oh oc r n c2,
      TFetchClient.delete cfg cache now transport url oh oc = .ok (r, n, c2) →
        r.data = none ∨ r.error = none) ∧
    (∀ cfg cache now transport url oh oc r n c2,
      TFetchClient.head cfg cache now transport url oh oc = .ok (r, n, c2) →
        r.data = none ∨ r.error = none) ∧
    (∀ cfg cache now transport url body oh oc r n c2,
      TFetchClient.post cfg cache now transport url body oh oc = .ok (r, n, c2) →
        r.data = none ∨ r.error = none) ∧
    (∀ cfg cache now transport url body oh oc r n c2,
      TFetchClient.put cfg cache now transport url body oh oc = .ok (r, n, c2) →
        r.data = none ∨ r.error = none) ∧
    (∀ cfg cache now transport url body oh oc r n c2,
      TFetchClient.patch cfg cache now transport url body oh oc = .ok (r, n, c2) →
        r.data = none ∨ r.error = none) :=
  ⟨fun cfg cache now transport url oh oc r n c2 h =>
      requestNoBody_ok_excl cfg cache now transport "GET" url oh oc r n c2 h,
    fun cfg cache now transport url oh oc r n c2 h =>
      requestNoBody_ok_excl cfg cache now transport "DELETE" url oh oc r n c2 h,
    fun cfg cache now transport url oh oc r n c2 h =>
      requestNoBody_ok_excl cfg cache now transport "HEAD" url oh oc r n c2 h,
    fun cfg cache now transport url body oh oc r n c2 h =>
      requestWithBody_ok_excl cfg cache now transport "POST" url body oh oc r n c2 h,
    fun cfg cache now transport url body oh oc r n c2 h =>
      requestWithBody_ok_excl cfg cache now transport "PUT" url body oh oc r n c2 h,
    fun cfg cache now transport url body oh oc r n c2 h =>
      requestWithBody_ok_excl cfg cache now transport "PATCH" url body oh oc r n c2 h⟩

/-- Claim C1, witness: the amended theorem applied to a concrete completed
GET whose response decodes to the number 7. -/
theorem c1_witness :
    (⟨some (.atom (.jnum 7)), none⟩ : ResultJ).data = none ∨
      (⟨some (.atom (.jnum 7)), none⟩ : ResultJ).error = none :=
  c1_theorem.1 cfgBase [] 0 trOkPlain "https://x" none none
    ⟨some (.atom (.jnum 7)), none⟩ 1 [] rfl

/-- Claim C2, counterexample: with `maxCachedEntries = 2`, three insertions
with distinct keys leave the store at size 3, exceeding the configured
limit, because the sweep triggered by the third insertion removes
`Math.floor(2 * 0.25) = 0` entries. -/
theorem c2_counterexample :
    cfgMax2.cache.maxCachedEntries = 2 ∧ (applySaves cfgMax2 opsThree).length = 3 :=
  ⟨rfl, by decide⟩

/-- Claim C2, amended: after any sequence of insertions (each preceded by
the eviction sweep) starting from the empty store, the store size never
exceeds the configured `maxCachedEntries` provided that limit is at least 4
(so that a full sweep removes at least one entry); for smaller limits the
size can exceed the limit, as the counterexample shows.  The default limit
is 5000. -/
theorem c2_theorem (cfg : TFetchConfig) (h4 : 4 ≤ cfg.cache.maxCachedEntries)
    (ops : List SaveOp) :
    (applySaves cfg ops).length ≤ cfg.cache.maxCachedEntries :=
  (applySaves_bound cfg h4 ops [] (by simp [NodupKeys, cacheKeys]) (by simp)).2

/-- Claim C2, witness: the amended bound applied to six insertions under a
limit of four. -/
theorem c2_witness :
    4 ≤ cfgMax4.cache.maxCachedEntries ∧
      (applySaves cfgMax4 opsSix).length ≤ cfgMax4.cache.maxCachedEntries :=
  ⟨by decide, c2_theorem cfgMax4 (by decide) opsSix⟩

/-- Claim C3, code evaluated at the failing input: two cache-key
computations identical except for the value of the `Authorization` header
produce the same key, because `Object.entries` applied to the merged
`Headers` instance is always empty, so the essential-header filter never
sees any header.  (The repository's own caching test expects requests with
different headers to produce different cache keys.) -/
theorem c3_theorem :
    mergeHeaders [[("Authorization", "Bearer token-one")], []] =
      .ok [("authorization", "Bearer token-one")] ∧
    mergeHeaders [[("Authorization", "Bearer token-two")], []] =
      .ok [("authorization", "Bearer token-two")] ∧
    generateCacheKey "https://api.example.com/users" "GET"
      (some [("authorization", "Bearer token-one")]) (.atom .jundef) =
    generateCacheKey "https://api.example.com/users" "GET"
      (some [("authorization", "Bearer token-two")]) (.atom .jundef) :=
  ⟨by decide, by decide, rfl⟩

/-- Claim C4: retry budget of the executor.  (a) every execution performs
at most `maxRetries + 1` transport attempts; (b) with a transport that
always fails, exactly `maxRetries + 1` attempts occur and the final result
is a terminal error (null data, non-null error); (c) with `maxRetries = 2`
and a transport failing twice then succeeding with a decodable ok
response, exactly 3 attempts occur and the result is a success (null
error); (d) `maxRetries = 0` means exactly one attempt for every
transport. -/
theorem c4_theorem :
    (∀ (transport : Nat → Except JSError Response) method dh N,
      (handleRequest transport method dh N).2 ≤ N + 1) ∧
    (∀ (transport : Nat → Except JSError Response) method dh N,
      (∀ i, ∃ e, transport i = .error e) →
        (handleRequest transport method dh N).2 = N + 1 ∧
          (handleRequest transport method dh N).1.data = none ∧
          (handleRequest transport method dh N).1.error.isSome = true) ∧
    (∀ (transport : Nat → Except JSError Response) dh e0 e1 res v,
      transport 0 = .error e0 → transport 1 = .error e1 → transport 2 = .ok res →
        res.ok = true → res.json = .ok v →
        (handleRequest transport "GET" dh 2).1.error = none ∧
          (handleRequest transport "GET" dh 2).2 = 3) ∧
    (∀ (transport : Nat → Except JSError Response) method dh,
      (handleRequest transport method dh 0).2 = 1) := by
  refine ⟨handleRequest_count_le, ?_, ?_, ?_⟩
  · intro transport method dh N hf
    exact handleLoop_allfail transport method dh N hf (N + 1) 0 (by omega)
  · intro transport dh e0 e1 res v h0 h1 h2 hok hj
    have hatt0 := attemptOnce_transport_error transport "GET" dh 0 e0 h0
    have hatt1 := attemptOnce_transport_error transport "GET" dh 1 e1 h1
    have hatt2 : attemptOnce transport "GET" dh 2 = .ok ⟨optOfNull v, none⟩ := by
      rw [attemptOnce_ok_plain transport "GET" dh 2 res h2 hok (by simp), hj]
    have s0 := handleLoop_err_retry transport "GET" dh 2 2 0 e0 (by omega) hatt0
    have s1 : handleLoop transport "GET" dh 2 2 1 =
        ((handleLoop transport "GET" dh 2 1 2).1,
          (handleLoop transport "GET" dh 2 1 2).2 + 1) :=
      handleLoop_err_retry transport "GET" dh 2 1 1 e1 (by omega) hatt1
    have s2 : handleLoop transport "GET" dh 2 1 2 = (⟨optOfNull v, none⟩, 1) :=
      handleLoop_ok transport "GET" dh 2 0 2 _ (by omega) hatt2
    have hfull : handleRequest transport "GET" dh 2 = (⟨optOfNull v, none⟩, 3) := by
      show handleLoop transport "GET" dh 2 (2 + 1) 0 = (⟨optOfNull v, none⟩, 3)
      rw [s0, s1, s2]
    rw [hfull]
    exact ⟨rfl, rfl⟩
  · intro transport method dh
    cases hatt : attemptOnce transport method dh 0 with
    | ok r =>
      have h := handleLoop_ok transport method dh 0 0 0 r (Nat.le_refl 0) hatt
      show (handleLoop transport method dh 0 (0 + 1) 0).2 = 1
      rw [h]
    | error e =>
      have h := handleLoop_err_last transport method dh 0 0 0 e rfl hatt
      show (handleLoop transport method dh 0 (0 + 1) 0).2 = 1
      rw [h]

/-- Claim C4, witness: the retry-budget theorem applied to an always-failing
transport with budget 2, to a fail-fail-succeed transport with budget 2,
and to budget 0. -/
theorem c4_witness :
    (handleRequest trAllFail "GET" .empty 2).2 = 3 ∧
    (handleRequest trAllFail "GET" .empty 2).1.data = none ∧
    (handleRequest trAllFail "GET" .empty 2).1.error.isSome = true ∧
    (handleRequest trFailFailOk "GET" .empty 2).1.error = none ∧
    (handleRequest trFailFailOk "GET" .empty 2).2 = 3 ∧
    (handleRequest trAllFail "GET" .empty 0).2 = 1 := by
  have hb := c4_theorem.2.1 trAllFail "GET" .empty 2 (fun _ => ⟨.other "network down", rfl⟩)
  have hc := c4_theorem.2.2.1 trFailFailOk .empty (.other "boom") (.other "boom")
    resOkPlain (.atom (.jnum 7)) rfl rfl rfl rfl rfl
  have hd := c4_theorem.2.2.2 trAllFail "GET" .empty
  exact ⟨by rw [hb.1], hb.2.1, hb.2.2, hc.1, hc.2, hd⟩

/-- Claim C5, counterexample: a public `post` called with the content
wrapper `(json, null)` does not return a Result — the synchronous
`prepareBody` failure propagates out of the async method as a rejected
promise, refuting the claim that no error ever crosses the public
boundary. -/
theorem c5_counterexample :
    TFetchClient.post cfgBase [] 0 trAllFail "https://x" ⟨.json, .atom .jnull⟩
      none none =
      .error (.tfetch "JSON body cannot be null or undefined" (some 400)) :=
  rfl

/-- Claim C5, amended: exactly two synchronous pre-transport failure
classes cross the public boundary as promise rejections, and nothing
else.  On every verb (get/delete/head included), the call rejects exactly
when the header merge throws — the `Headers` constructor TypeError on an
invalid caller- or config-supplied header name or value, raised outside
any try/catch — and the rejection carries exactly that error.  On
post/put/patch, when the header merge succeeds the call rejects exactly
when the synchronous body preparation/serialization pipeline fails,
carrying exactly that failure.  All transport-level and HTTP-level
failures are normalised into `Result.error`. -/
theorem c5_theorem :
    (∀ cfg cache now transport url oh oc e,
      TFetchClient.get cfg cache now transport url oh oc = .error e ↔
        mergeHeaders [cfg.headers, oh.getD []] = .error e) ∧
    (∀ cfg cache now transport url oh oc e,
      TFetchClient.delete cfg cache now transport url oh oc = .error e ↔
        mergeHeaders [cfg.headers, oh.getD []] = .error e) ∧
    (∀ cfg cache now transport url oh oc e,
      TFetchClient.head cfg cache now transport url oh oc = .error e ↔
        mergeHeaders [cfg.headers, oh.getD []] = .error e) ∧
    (∀ cfg cache now transport url body oh oc e,
      mergeHeaders [cfg.headers, getHeadersFor body.type, oh.getD []] = .error e →
        TFetchClient.post cfg cache now transport url body oh oc = .error e) ∧
    (∀ cfg cache now transport url body oh oc hdrs e,
      mergeHeaders [cfg.headers, getHeadersFor body.type, oh.getD []] = .ok hdrs →
        (TFetchClient.post cfg cache now transport url body oh oc = .error e ↔
          bodyPipeline body = .error e)) ∧
    (∀ cfg cache now transport url body oh oc e,
      mergeHeaders [cfg.headers, getHeadersFor body.type, oh.getD []] = .error e →
        TFetchClient.put cfg cache now transport url body oh oc = .error e) ∧
    (∀ cfg cache now transport url body oh oc hdrs e,
      mergeHeaders [cfg.headers, getHeadersFor body.type, oh.getD []] = .ok hdrs →
        (TFetchClient.put cfg cache now transport url body oh oc = .error e ↔
          bodyPipeline body = .error e)) ∧
    (∀ cfg cache now transport url body oh oc e,
      mergeHeaders [cfg.headers, getHeadersFor body.type, oh.getD []] = .error e →
        TFetchClient.patch cfg cache now transport url body oh oc = .error e) ∧
    (∀ cfg cache now transport url body oh oc hdrs e,
      mergeHeaders [cfg.headers, getHeadersFor body.type, oh.getD []] = .ok hdrs →
        (TFetchClient.patch cfg cache now transport url body oh oc = .error e ↔
          bodyPipeline body = .error e)) :=
  ⟨fun cfg cache now transport url oh oc e =>
      requestNoBody_error_iff cfg cache now transport "GET" url oh oc e,
    fun cfg cache now transport url oh oc e =>
      requestNoBody_error_iff cfg cache now transport "DELETE" url oh oc e,
    fun cfg cache now transport url oh oc e =>
      requestNoBody_error_iff cfg cache now transport "HEAD" url oh oc e,
    fun cfg cache now transport url body oh oc e hm =>
      requestWithBody_error_of_mergeErr cfg cache now transport "POST" url body oh oc e hm,
    fun cfg cache now transport url body oh oc hdrs e hm =>
      requestWithBody_error_iff_of_mergeOk cfg cache now transport "POST" url body oh oc
        hdrs e hm,
    fun cfg cache now transport url body oh oc e hm =>
      requestWithBody_error_of_mergeErr cfg cache now transport "PUT" url body oh oc e hm,
    fun cfg cache now transport url body oh oc hdrs e hm =>
      requestWithBody_error_iff_of_mergeOk cfg cache now transport "PUT" url body oh oc
        hdrs e hm,
    fun cfg cache now transport url body oh oc e hm =>
      requestWithBody_error_of_mergeErr cfg cache now transport "PATCH" url body oh oc e hm,
    fun cfg cache now transport url body oh oc hdrs e hm =>
      requestWithBody_error_iff_of_mergeOk cfg cache now transport "PATCH" url body oh oc
        hdrs e hm⟩

/-- Claim C5, witness: a GET with the invalid header name "bad name"
rejects with the Headers TypeError; a GET with no extra headers never
rejects; a `post` with an `xml` wrapper and valid headers rejects with
exactly the unsupported-content-type failure of the body pipeline. -/
theorem c5_witness :
    TFetchClient.get cfgBase [] 0 trOkPlain "https://x"
      (some [("bad name", "x")]) none =
      .error (.other "Invalid header name: bad name") ∧
    TFetchClient.get cfgBase [] 0 trOkPlain "https://x" none none ≠
      .error (.other "boom") ∧
    TFetchClient.post cfgBase [] 0 trAllFail "https://x" ⟨.xml, .atom (.jstr "<a/>")⟩
      none none = .error (.tfetch "Unsupported content type: xml" (some 400)) := by
  refine ⟨?_, ?_, ?_⟩
  · exact (c5_theorem.1 cfgBase [] 0 trOkPlain "https://x" (some [("bad name", "x")])
      none (.other "Invalid header name: bad name")).mpr (by decide)
  · intro h
    have hm := (c5_theorem.1 cfgBase [] 0 trOkPlain "https://x" none none
      (.other "boom")).mp h
    exact absurd hm (by decide)
  · exact (c5_theorem.2.2.2.2.1 cfgBase [] 0 trAllFail "https://x"
      ⟨.xml, .atom (.jstr "<a/>")⟩ none none [("content-type", "application/xml")]
      (.tfetch "Unsupported content type: xml" (some 400)) (by decide)).mpr rfl

/-- Claim C6, counterexample: with delete handling mode `empty`, a
successful (ok) DELETE response whose Content-Length is not the string
"0" is not handled by the mode branch at all — its body is JSON-decoded
and returned as data, refuting the claim that every ok DELETE response is
determined by the configured mode. -/
theorem c6_counterexample :
    cfgBase.deleteHandling = .empty ∧
    handleRequest trOkPlain "DELETE" cfgBase.deleteHandling 0 =
      (⟨some (.atom (.jnum 7)), none⟩, 1) :=
  ⟨rfl, rfl⟩

/-- Claim C6, amended: for every ok response to a DELETE-method execution
whose Content-Length header is exactly "0", the result is determined by
the configured delete-handling mode: `empty` returns null data with no
decode attempt (the result is the same for every value of the decode
field), `status` returns the numeric status code as data, and `json`
attempts the decode, falling back to null data (not an error) when the
decode fails. -/
theorem c6_theorem (transport : Nat → Except JSError Response) (N : Nat)
    (res : Response) (h0 : transport 0 = .ok res) (hok : res.ok = true)
    (hcl : res.contentLength = some "0") :
    (handleRequest transport "DELETE" .empty N = (⟨none, none⟩, 1)) ∧
    (handleRequest transport "DELETE" .status N =
      (⟨some (.atom (.jnum res.status)), none⟩, 1)) ∧
    (∀ v, res.json = .ok v →
      handleRequest transport "DELETE" .json N = (⟨optOfNull v, none⟩, 1)) ∧
    (∀ e, res.json = .error e →
      handleRequest transport "DELETE" .json N = (⟨none, none⟩, 1)) := by
  refine ⟨?_, ?_, ?_, ?_⟩
  · show handleLoop transport "DELETE" .empty N (N + 1) 0 = (⟨none, none⟩, 1)
    exact handleLoop_ok transport "DELETE" .empty N N 0 _ (Nat.zero_le N)
      ((attemptOnce_delete_cl0 transport .empty 0 res h0 hok hcl).trans rfl)
  · show handleLoop transport "DELETE" .status N (N + 1) 0 = _
    exact handleLoop_ok transport "DELETE" .status N N 0 _ (Nat.zero_le N)
      ((attemptOnce_delete_cl0 transport .status 0 res h0 hok hcl).trans rfl)
  · intro v hj
    show handleLoop transport "DELETE" .json N (N + 1) 0 = _
    exact handleLoop_ok transport "DELETE" .json N N 0 _ (Nat.zero_le N)
      ((attemptOnce_delete_cl0 transport .json 0 res h0 hok hcl).trans (by rw [hj]))
  · intro e hj
    show handleLoop transport "DELETE" .json N (N + 1) 0 = _
    exact handleLoop_ok transport "DELETE" .json N N 0 _ (Nat.zero_le N)
      ((attemptOnce_delete_cl0 transport .json 0 res h0 hok hcl).trans (by rw [hj]))

/-- Claim C6, witness: the amended theorem applied to a zero-Content-Length
204 response with an undecodable body and to one with a decodable body. -/
theorem c6_witness :
    handleRequest trOkCL0 "DELETE" .empty 0 = (⟨none, none⟩, 1) ∧
    handleRequest trOkCL0 "DELETE" .status 0 = (⟨some (.atom (.jnum 204)), none⟩, 1) ∧
    handleRequest trCL0J "DELETE" .json 0 = (⟨some (.atom (.jnum 9)), none⟩, 1) ∧
    handleRequest trOkCL0 "DELETE" .json 0 = (⟨none, none⟩, 1) := by
  have h1 := c6_theorem trOkCL0 0 resOkCL0 rfl rfl rfl
  have h2 := c6_theorem trCL0J 0 resCL0J rfl rfl rfl
  exact ⟨h1.1, h1.2.1, h2.2.2.1 (.atom (.jnum 9)) rfl,
    h1.2.2.2 (.other "Unexpected end of JSON input") rfl⟩

/-- Claim C7: a transport call completing with a non-ok response causes
exactly one transport attempt — no retry, whatever the configured retry
count and method — and the result error carries the response body text as
message and the response status code. -/
theorem c7_theorem (transport : Nat → Except JSError Response) (method : String)
    (dh : DeleteHandling) (N : Nat) (res : Response)
    (h0 : transport 0 = .ok res) (hok : res.ok = false) :
    handleRequest transport method dh N =
      (⟨none, some ⟨res.text, some res.status⟩⟩, 1) := by
  show handleLoop transport method dh N (N + 1) 0 = _
  exact handleLoop_ok transport method dh N N 0 _ (Nat.zero_le N)
    (attemptOnce_notOk transport method dh 0 res h0 hok)

/-- Claim C7, witness: a 500 response with body "Internal Server Error"
under retry budget 5 yields one attempt and that error. -/
theorem c7_witness :
    handleRequest trBad "GET" .empty 5 =
      (⟨none, some ⟨"Internal Server Error", some 500⟩⟩, 1) :=
  c7_theorem trBad "GET" .empty 5 resBad rfl rfl

/-- Claim C8: behaviour of the eviction step on a store with unique keys.
(a) below the limit the store is untouched; (b) at or above the limit the
sweep removes exactly `floor(size * 0.25)` entries; (c) surviving entries
were present before; (d) every removed entry has a timestamp no larger
than that of every kept entry (oldest first); (e) for sizes up to 3 the
sweep removes nothing, even when the limit is reached. -/
theorem c8_theorem (cfg : TFetchConfig) (c : CacheMap) (hnd : NodupKeys c) :
    (c.length < cfg.cache.maxCachedEntries → cleanupCache cfg c = c) ∧
    (cfg.cache.maxCachedEntries ≤ c.length →
      (cleanupCache cfg c).length = c.length - c.length / 4) ∧
    (∀ p ∈ cleanupCache cfg c, p ∈ c) ∧
    (cfg.cache.maxCachedEntries ≤ c.length →
      ∀ q ∈ c, q ∉ cleanupCache cfg c → ∀ p ∈ cleanupCache cfg c,
        q.2.timestamp ≤ p.2.timestamp) ∧
    (c.length ≤ 3 → cleanupCache cfg c = c) := by
  refine ⟨fun h => cleanupCache_of_lt cfg c h,
    fun h => cleanup_length_of_ge cfg c hnd h, ?_, ?_, ?_⟩
  · intro p hp
    by_cases hge : cfg.cache.maxCachedEntries ≤ c.length
    · rw [cleanupCache_of_ge cfg c hge] at hp
      exact (List.mem_filter.mp hp).1
    · rwa [cleanupCache_of_lt cfg c (by omega)] at hp
  · intro hge q hqc hqout p hpin
    rw [cleanupCache_of_ge cfg c hge] at hqout hpin
    have hq : ¬((!(((List.insertionSort byTimestamp c).take (c.length / 4)).map
        Prod.fst).contains q.1) = true) :=
      fun hq' => hqout (List.mem_filter.mpr ⟨hqc, hq'⟩)
    have hqk : q.1 ∈ ((List.insertionSort byTimestamp c).take (c.length / 4)).map
        Prod.fst := by
      rw [Bool.not_eq_true', Bool.not_eq_false] at hq
      exact List.elem_iff.mp hq
    rcases List.mem_map.mp hqk with ⟨q', hq'take, hq'fst⟩
    have hq'c : q' ∈ c :=
      (List.perm_insertionSort byTimestamp c).mem_iff.mp (List.mem_of_mem_take hq'take)
    have hq'q : q' = q := by
      have hmap : (c.map Prod.fst).Nodup := hnd
      exact List.inj_on_of_nodup_map hmap hq'c hqc hq'fst
    have hp := List.mem_filter.mp hpin
    have hpsort : p ∈ List.insertionSort byTimestamp c :=
      (List.perm_insertionSort byTimestamp c).mem_iff.mpr hp.1
    rw [← List.take_append_drop (c.length / 4) (List.insertionSort byTimestamp c)]
      at hpsort
    have hpdrop : p ∈ (List.insertionSort byTimestamp c).drop (c.length / 4) := by
      rcases List.mem_append.mp hpsort with htake | hdrop
      · exfalso
        have hmem := List.mem_map_of_mem Prod.fst htake
        have hcont : (((List.insertionSort byTimestamp c).take (c.length / 4)).map
            Prod.fst).contains p.1 = true := List.elem_iff.mpr hmem
        have hf : (!(((List.insertionSort byTimestamp c).take (c.length / 4)).map
            Prod.fst).contains p.1) = true := hp.2
        rw [hcont] at hf
        simp at hf
      · exact hdrop
    have hpw := List.sorted_insertionSort byTimestamp c
    rw [← List.take_append_drop (c.length / 4) (List.insertionSort byTimestamp c)]
      at hpw
    have hptw := (List.pairwise_append.mp hpw).2.2
    have := hptw q' hq'take p hpdrop
    rw [hq'q] at this
    exact this
  · intro h3
    simp only [cleanupCache]
    split
    · have h0 : c.length / 4 = 0 := by omega
      rw [h0, List.take_zero, List.map_nil]
      rfl
    · rfl

/-- Claim C8, witness: the eviction theorem applied to a four-entry store at
limit four (one entry evicted) and to a two-entry store at limit two (the
sweep triggers but removes zero entries). -/
theorem c8_witness :
    (cleanupCache cfgMax4 cacheFour).length = cacheFour.length - cacheFour.length / 4 ∧
    cleanupCache cfgMax2 cacheTwo = cacheTwo :=
  ⟨(c8_theorem cfgMax4 cacheFour
      (show NodupKeys cacheFour by unfold NodupKeys cacheKeys; decide)).2.1 (by decide),
    (c8_theorem cfgMax2 cacheTwo
      (show NodupKeys cacheTwo by unfold NodupKeys cacheKeys; decide)).2.2.2.2 (by decide)⟩

/-- Claim C9: serialization of a prepared content wrapper.  Type `json`
yields the JSON-encoded string (with the claim's concrete example), and
fails with a serialization error on unencodable (circular) data; type
`text` yields the string coercion (123 becomes "123"); `blob` passes the
payload through unchanged, as do `form` and `multipart` with the
multi-value form container; null or undefined data yields the absent body
(the undefined value, distinct from the empty string), whatever the type;
and the types not handled by `serializeBody` (xml, html) fail with an
unsupported-content-type error. -/
theorem c9_theorem :
    (serializeBody ⟨.json, .obj [("a", .jnum 1)]⟩ = .ok (.atom (.jstr "\x7b\"a\":1\x7d"))) ∧
    (∀ d s, d ≠ .atom .jnull → d ≠ .atom .jundef → jsonStringify d = .ok s →
      serializeBody ⟨.json, d⟩ = .ok (.atom (.jstr s))) ∧
    (serializeBody ⟨.json, .circular⟩ =
      .error (.tfetch ("Failed to serialize JSON data: " ++
        "Converting circular structure to JSON") (some 400))) ∧
    (serializeBody ⟨.text, .atom (.jnum 123)⟩ = .ok (.atom (.jstr "123"))) ∧
    (∀ d, d ≠ .atom .jnull → d ≠ .atom .jundef →
      serializeBody ⟨.text, d⟩ = .ok (.atom (.jstr (jsToString d)))) ∧
    (∀ d, d ≠ .atom .jnull → d ≠ .atom .jundef →
      serializeBody ⟨.blob, d⟩ = .ok d ∧ serializeBody ⟨.form, d⟩ = .ok d ∧
        serializeBody ⟨.multipart, d⟩ = .ok d) ∧
    (∀ t, serializeBody ⟨t, .atom .jnull⟩ = .ok (.atom .jundef) ∧
      serializeBody ⟨t, .atom .jundef⟩ = .ok (.atom .jundef)) ∧
    (∀ d, d ≠ .atom .jnull → d ≠ .atom .jundef →
      serializeBody ⟨.xml, d⟩ =
        .error (.tfetch ("Cannot serialize content type: xml") (some 400)) ∧
      serializeBody ⟨.html, d⟩ =
        .error (.tfetch ("Cannot serialize content type: html") (some 400))) := by
  refine ⟨rfl, ?_, rfl, rfl, ?_, ?_, ?_, ?_⟩
  · intro d s h1 h2 h3
    simp only [serializeBody]
    rw [if_neg (not_or.mpr ⟨h1, h2⟩), h3]
  · intro d h1 h2
    simp only [serializeBody]
    rw [if_neg (not_or.mpr ⟨h1, h2⟩)]
  · intro d h1 h2
    refine ⟨?_, ?_, ?_⟩ <;>
      (simp only [serializeBody]; rw [if_neg (not_or.mpr ⟨h1, h2⟩)])
  · intro t
    exact ⟨by simp [serializeBody], by simp [serializeBody]⟩
  · intro d h1 h2
    constructor
    · simp only [serializeBody]
      rw [if_neg (not_or.mpr ⟨h1, h2⟩)]
      rfl
    · simp only [serializeBody]
      rw [if_neg (not_or.mpr ⟨h1, h2⟩)]
      rfl


/-- Claim C9, witness: the serialization theorem applied to concrete data
of every kind. -/
theorem c9_witness :
    serializeBody ⟨.json, .atom (.jbool true)⟩ = .ok (.atom (.jstr "true")) ∧
    serializeBody ⟨.text, .atom (.jbool false)⟩ = .ok (.atom (.jstr "false")) ∧
    serializeBody ⟨.blob, .atom (.jblob "BIN")⟩ = .ok (.atom (.jblob "BIN")) ∧
    serializeBody ⟨.form, .formData [("k", .jstr "v")]⟩ =
      .ok (.formData [("k", .jstr "v")]) ∧
    serializeBody ⟨.multipart, .formData [("k", .jstr "v")]⟩ =
      .ok (.formData [("k", .jstr "v")]) ∧
    serializeBody ⟨.blob, .atom .jnull⟩ = .ok (.atom .jundef) ∧
    serializeBody ⟨.xml, .atom (.jstr "<a/>")⟩ =
      .error (.tfetch "Cannot serialize content type: xml" (some 400)) := by
  have h2 := c9_theorem.2.1 (.atom (.jbool true)) "true" (by simp) (by simp) rfl
  have h5 := c9_theorem.2.2.2.2.1 (.atom (.jbool false)) (by simp) (by simp)
  have h6a := c9_theorem.2.2.2.2.2.1 (.atom (.jblob "BIN")) (by simp) (by simp)
  have h6b := c9_theorem.2.2.2.2.2.1 (.formData [("k", .jstr "v")]) (by simp) (by simp)
  have h7 := (c9_theorem.2.2.2.2.2.2.1 .blob).1
  have h8 := (c9_theorem.2.2.2.2.2.2.2 (.atom (.jstr "<a/>")) (by simp) (by simp)).1
  exact ⟨h2, h5, h6a.1, h6b.2.1, h6b.2.2, h7, h8⟩

/-- Claim C10: with caching enabled for the call (and the header merge
succeeding, so the call proceeds), a present, unexpired cache entry
holding a falsy data value (0, the empty string, false, null) is treated
as a miss: the hit test checks the truthiness of the retrieved data, so
the client runs the executor (at least one transport attempt occurs) and
returns its result instead of the cached value. -/
theorem c10_theorem (cfg : TFetchConfig) (cache : CacheMap) (now : Nat)
    (transport : Nat → Except JSError Response) (url : String)
    (oh : Option (List (String × String))) (oc : Option RequestCacheOptions)
    (hdrs : HeadersObj) (entry : CacheEntry)
    (hMerge : mergeHeaders [cfg.headers, oh.getD []] = .ok hdrs)
    (hEn : (oc.bind RequestCacheOptions.enabled).getD cfg.cache.enabled = true)
    (hLook : mapLookup cache
      (generateCacheKey url "GET" (some hdrs) (.atom .jundef)) = some entry)
    (hFresh : ¬(entry.expiresAt ≠ 0 ∧ now > entry.expiresAt))
    (hFalsy : jsTruthy entry.data = false) :
    callResult (TFetchClient.get cfg cache now transport url oh oc) =
      some (handleRequest transport "GET" cfg.deleteHandling cfg.retry.count).1 ∧
    callAttempts (TFetchClient.get cfg cache now transport url oh oc) =
      some (handleRequest transport "GET" cfg.deleteHandling cfg.retry.count).2 ∧
    1 ≤ (handleRequest transport "GET" cfg.deleteHandling cfg.retry.count).2 := by
  have hgfc : getFromCache cache
      (generateCacheKey url "GET" (some hdrs) (.atom .jundef)) now =
      (some entry.data, cache) := by
    simp only [getFromCache, hLook]
    rw [if_neg hFresh]
  have hget : TFetchClient.get cfg cache now transport url oh oc =
      requestNoBody cfg cache now transport "GET" url oh oc := rfl
  rw [hget]
  simp only [requestNoBody, hMerge, hEn, if_true, hgfc, jsTruthyOpt, hFalsy,
    Bool.false_eq_true, if_false]
  exact ⟨rfl, rfl, handleRequest_count_pos transport "GET" cfg.deleteHandling
    cfg.retry.count⟩

/-- Claim C10, witness: a cached, unexpired entry holding the falsy value 0
under the exact key of a GET of `https://x` is bypassed: the executor runs
one transport attempt. -/
theorem c10_witness :
    callResult (TFetchClient.get cfgCacheOn cacheFalsy 50 trOkPlain "https://x"
      none none) =
      some (handleRequest trOkPlain "GET" cfgCacheOn.deleteHandling
        cfgCacheOn.retry.count).1 ∧
    callAttempts (TFetchClient.get cfgCacheOn cacheFalsy 50 trOkPlain "https://x"
      none none) =
      some (handleRequest trOkPlain "GET" cfgCacheOn.deleteHandling
        cfgCacheOn.retry.count).2 ∧
    1 ≤ (handleRequest trOkPlain "GET" cfgCacheOn.deleteHandling
      cfgCacheOn.retry.count).2 :=
  c10_theorem cfgCacheOn cacheFalsy 50 trOkPlain "https://x" none none
    ([] : HeadersObj) entryFalsy rfl rfl
    (by simp [cacheFalsy, falsyKey, mapLookup]) (by decide) rfl
